import Mathlib

/-!
Verification of the mycobot protocol engine (`src/operator.rs`).

Shallow embedding conventions:
* wire bytes are `Nat` values (callers always supply values < 256; the
  claims never depend on larger values);
* Rust panics (index out of bounds, `usize`/`u8` subtraction underflow,
  out-of-range slicing) are modelled as `none` of an `Option` result;
* `f64` arithmetic appears in two forms: the codec definitions
  (`int_to_angle`, `angle_to_int`, …) idealise it as exact rational
  arithmetic (`ℚ`), which is faithful on inputs where every floating
  operation involved is exact — the concrete inputs of the witnesses and
  counterexamples built on them are chosen that way; where a property
  hinges on rounding itself, the rounding-faithful binary64 model
  (`rne64`, `f64_div`, `f64_mul` and the `_f64` codecs below) is used:
  it rounds the exact rational value to 53 significant bits, to nearest,
  ties to even, exactly as IEEE-754 binary64 does in the normal range,
  which contains every value arising here;
* Rust's `as i16` cast from a float truncates toward zero and saturates to
  the `i16` range (stable float-to-int cast semantics).
-/

namespace MyCobot

/-- Modelled from the spec: `common.rs` is not part of the sources at hand.
The spec fixes only that SENTINEL is one fixed byte value, identical for
header and trailer; the concrete value is a vendor constant, chosen here
as a placeholder byte. No claim depends on the particular value. -/
def Command.HEADER : Nat := 254

/-- Modelled from the spec: the frame trailer sentinel, identical to the
header sentinel per the spec's data model. -/
def Command.FOOTER : Nat := Command.HEADER

/-- Modelled from the spec: vendor-fixed opcode of the servo-enabled query;
the spec does not list the byte values, a placeholder is used. -/
def Command.IS_SERVO_ENABLE : Nat := 80

/-- Modelled from the spec: vendor-fixed opcode of the is-power-on query. -/
def Command.IS_POWER_ON : Nat := 18

/-- Modelled from the spec: vendor-fixed opcode of the get-angles query. -/
def Command.GET_ANGLES : Nat := 32

/-- Modelled from the spec: vendor-fixed opcode of the get-coords query. -/
def Command.GET_COORDS : Nat := 35

/-- Reinterpret a 16-bit unsigned value (built from two wire bytes) as a
signed 16-bit integer, as `BigEndian::read_i16` does. -/
def as_i16 (u : Nat) : Int :=
  if u < 32768 then (u : Int) else (u : Int) - 65536

/-- Reinterpret one wire byte as a signed 8-bit integer
(`i8::from_be_bytes`). -/
def as_i8 (b : Nat) : Int :=
  if b < 128 then (b : Int) else (b : Int) - 256

/-- `decode_int16`: `BigEndian::read_i16(&data[0..2])`; slicing a buffer of
fewer than two bytes panics (`none`). -/
def decode_int16 (data : List Nat) : Option Int :=
  match data with
  | b0 :: b1 :: _ => some (as_i16 (b0 * 256 + b1))
  | _ => none

/-- `decode_int8`: reads `data[0]` as an `i8`; empty input panics (`none`). -/
def decode_int8 (data : List Nat) : Option Int :=
  match data with
  | b :: _ => some (as_i8 b)
  | [] => none

/-- `decode_int16_vec`: reads big-endian `i16`s at indices 0,2,4,…; a
trailing odd byte makes the final two-byte read panic (`none`). -/
def decode_int16_vec : List Nat → Option (List Int)
  | [] => some []
  | [_] => none
  | b0 :: b1 :: rest => (decode_int16_vec rest).map (fun t => as_i16 (b0 * 256 + b1) :: t)

/-- `concat_message` (the spec's `build_frame`): header sentinel pair,
length byte `payload.len() + 2` (an `as u8` cast, hence mod 256), opcode,
payload, trailer sentinel. -/
def concat_message (genre : Nat) (command_data : List Nat) : List Nat :=
  Command.HEADER :: Command.HEADER :: ((2 + command_data.length) % 256) ::
    genre :: (command_data ++ [Command.FOOTER])

/-- `is_frame_header`: two consecutive sentinel bytes at `pos`. The Rust
code indexes `data[pos]`/`data[pos+1]`; every call made by the scan is in
bounds, so the total `getD` form agrees with the source there. -/
def is_frame_header (data : List Nat) (pos : Nat) : Bool :=
  data.getD pos 0 == Command.HEADER && data.getD (pos + 1) 0 == Command.HEADER

/-- The header scan `(0..(data.len() - 1)).position(|i| is_frame_header
(data, i))`: first index `i ≤ data.length - 2` starting a sentinel pair.
(Defined for nonempty `data`; the empty case panics in the source and is
handled by the callers below.) -/
def find_header (data : List Nat) : Option Nat :=
  (List.range (data.length - 1)).find? (fun i => is_frame_header data i)

/-- The spec's `decode_payload` stage of `process_received` (source lines
107–117): dispatch on the payload length. A zero-length payload reaches
`decode_int8` on an empty slice, which panics (`none`). -/
def decode_payload (valid_data : List Nat) (genre : Nat) : Option (List Int) :=
  if valid_data.length = 12 then
    decode_int16_vec valid_data
  else if valid_data.length = 2 then
    if genre = Command.IS_SERVO_ENABLE then
      (decode_int8 (valid_data.drop 1)).map (fun v => [v])
    else
      (decode_int16 valid_data).map (fun v => [v])
  else
    (decode_int8 valid_data).map (fun v => [v])

/-- The spec's `parse_frame` stage of `process_received` (source lines
96–106): locate the sentinel pair, read the declared length and opcode,
discard on opcode mismatch, otherwise slice the payload. Panics of the
source (`data.len() - 1` underflow on an empty reply, out-of-bounds reads
of the length/opcode bytes, `u8` underflow of `data[idx+2] - 2`,
out-of-range payload slicing) are `none`. -/
def parse_frame (data : List Nat) (genre : Nat) : Option (List Nat) :=
  if data.length = 0 then none
  else
    match find_header data with
    | none => some []
    | some idx =>
      match data[idx + 2]?, data[idx + 3]? with
      | some lenByte, some cmd_id =>
        if lenByte < 2 then none
        else if cmd_id ≠ genre then some []
        else if idx + 4 + (lenByte - 2) ≤ data.length then
          some ((data.drop (idx + 4)).take (lenByte - 2))
        else none
      | _, _ => none

/-- `process_received` (source lines 96–122): `parse_frame` fused with
`decode_payload`. The branch structure mirrors the source; all panic paths
are `none`. -/
def process_received (data : List Nat) (genre : Nat) : Option (List Int) :=
  if data.length = 0 then none
  else
    match find_header data with
    | none => some []
    | some idx =>
      match data[idx + 2]?, data[idx + 3]? with
      | some lenByte, some cmd_id =>
        if lenByte < 2 then none
        else if cmd_id ≠ genre then some []
        else if idx + 4 + (lenByte - 2) ≤ data.length then
          decode_payload ((data.drop (idx + 4)).take (lenByte - 2)) genre
        else none
      | _, _ => none

/-- Bytes with no two consecutive sentinel values. -/
def no_double_sentinel : List Nat → Bool
  | a :: b :: t =>
      (!(a == Command.HEADER && b == Command.HEADER)) && no_double_sentinel (b :: t)
  | _ => true

/-- Rust's `as i16` cast applied to an `f64` value (here an exact rational):
truncate toward zero, then saturate to the `i16` range. -/
def f64_as_i16 (q : ℚ) : Int :=
  max (-32768) (min 32767 (if 0 ≤ q then ⌊q⌋ else ⌈q⌉))

/-- `angle_to_int`: `(degree * 100.0) as i16`, with the product idealised as
exact (the real f64 multiplication rounds; `angle_to_int_f64` below models
that). -/
def angle_to_int (degree : ℚ) : Int :=
  f64_as_i16 (degree * 100)

/-- `coord_to_int`: `(coord * 10.0) as i16`, with the product idealised as
exact (see `coord_to_int_f64` for the rounding-faithful form). -/
def coord_to_int (coord : ℚ) : Int :=
  f64_as_i16 (coord * 10)

/-- `int_to_angle`: `(val as f64) / 100.0`, with the division idealised as
exact (the real f64 division rounds; `int_to_angle_f64` below models that). -/
def int_to_angle (val : Int) : ℚ :=
  (val : ℚ) / 100

/-- `int_to_coord`: `(val as f64) / 10.0`, with the division idealised as
exact (see `int_to_coord_f64` for the rounding-faithful form). -/
def int_to_coord (val : Int) : ℚ :=
  (val : ℚ) / 10

/-- `coords_to_int_vec` (the spec's `coords_to_int`): coordinate scaling
×10 at indices 0–2, angle scaling ×100 at indices 3–5. -/
def coords_to_int_vec (coords : List ℚ) : List Int :=
  coords.enum.map (fun p => if p.1 < 3 then coord_to_int p.2 else angle_to_int p.2)

/-- `int_vec_to_coords` (the spec's `int_to_coords`): inverse per-index
scaling, ÷10 at indices 0–2, ÷100 at indices 3–5. -/
def int_vec_to_coords (vals : List Int) : List ℚ :=
  vals.enum.map (fun p => if p.1 < 3 then int_to_coord p.2 else int_to_angle p.2)

/-- Round a rational to an integer, to nearest, ties to even — the rounding
rule of IEEE-754 applied to the scaled significand. -/
def round_half_even (m : ℚ) : Int :=
  if m - ⌊m⌋ < 1 / 2 then ⌊m⌋
  else if 1 / 2 < m - ⌊m⌋ then ⌊m⌋ + 1
  else if ⌊m⌋ % 2 = 0 then ⌊m⌋ else ⌊m⌋ + 1

/-- IEEE-754 binary64 rounding of an exact rational value: scale into the
53-bit significand range `[2^52, 2^53)`, round to nearest with ties to even,
and scale back. This is exact binary64 round-to-nearest-even throughout the
normal range, which contains every nonzero value arising in this file; no
overflow or subnormal handling is needed there. -/
def rne64 (q : ℚ) : ℚ :=
  if q = 0 then 0
  else (round_half_even (q / 2 ^ (Int.log 2 |q| - 52)) : ℚ) * 2 ^ (Int.log 2 |q| - 52)

/-- f64 division: IEEE-754 computes the exact quotient, then rounds. -/
def f64_div (x y : ℚ) : ℚ := rne64 (x / y)

/-- f64 multiplication: exact product, then rounds. -/
def f64_mul (x y : ℚ) : ℚ := rne64 (x * y)

/-- `int_to_angle` on rounding-faithful binary64 arithmetic:
`(val as f64) / 100.0` — an i16 converts to f64 exactly, the literal 100.0
is exact, and the division rounds. -/
def int_to_angle_f64 (val : Int) : ℚ := f64_div (val : ℚ) 100

/-- `int_to_coord` on rounding-faithful binary64 arithmetic. -/
def int_to_coord_f64 (val : Int) : ℚ := f64_div (val : ℚ) 10

/-- `angle_to_int` on rounding-faithful binary64 arithmetic:
`(degree * 100.0) as i16` — the product rounds before the truncating cast. -/
def angle_to_int_f64 (degree : ℚ) : Int := f64_as_i16 (f64_mul degree 100)

/-- `coord_to_int` on rounding-faithful binary64 arithmetic. -/
def coord_to_int_f64 (coord : ℚ) : Int := f64_as_i16 (f64_mul coord 10)

/-- `coords_to_int_vec` on rounding-faithful binary64 arithmetic. -/
def coords_to_int_vec_f64 (coords : List ℚ) : List Int :=
  coords.enum.map (fun p => if p.1 < 3 then coord_to_int_f64 p.2 else angle_to_int_f64 p.2)

/-- `int_vec_to_coords` on rounding-faithful binary64 arithmetic. -/
def int_vec_to_coords_f64 (vals : List Int) : List ℚ :=
  vals.enum.map (fun p => if p.1 < 3 then int_to_coord_f64 p.2 else int_to_angle_f64 p.2)

/-- Reply handling of `get_angles`: `process_received` with the get-angles
opcode, then `int_to_angle` mapped over every decoded value. -/
def get_angles_from_reply (res : List Nat) : Option (List ℚ) :=
  (process_received res Command.GET_ANGLES).map (fun vs => vs.map int_to_angle)

/-- Reply handling of `get_coords`: `process_received` with the get-coords
opcode, then `int_vec_to_coords`. -/
def get_coords_from_reply (res : List Nat) : Option (List ℚ) :=
  (process_received res Command.GET_COORDS).map int_vec_to_coords

/-- Reply handling of `is_power_on`: `if res.is_empty() { -1 } else
{ res[0] as i32 }` on the raw transport bytes. -/
def is_power_on_result (res : List Nat) : Int :=
  if res.isEmpty then -1 else (res.headD 0 : Int)

/-- Reply handling of `is_controller_connected` (same raw-byte pattern). -/
def is_controller_connected_result (res : List Nat) : Int :=
  if res.isEmpty then -1 else (res.headD 0 : Int)

/-- Reply handling of `is_moving` (same raw-byte pattern). -/
def is_moving_result (res : List Nat) : Int :=
  if res.isEmpty then -1 else (res.headD 0 : Int)

/-- Reply handling of `is_paused` (same raw-byte pattern). -/
def is_paused_result (res : List Nat) : Int :=
  if res.isEmpty then -1 else (res.headD 0 : Int)

/-- Reply handling of `is_in_angle_position` (same raw-byte pattern). -/
def is_in_angle_position_result (res : List Nat) : Int :=
  if res.isEmpty then -1 else (res.headD 0 : Int)

/-- Reply handling of `is_in_coord_position` (same raw-byte pattern). -/
def is_in_coord_position_result (res : List Nat) : Int :=
  if res.isEmpty then -1 else (res.headD 0 : Int)

/-- Reply handling of `get_encoder` (same raw-byte pattern). -/
def get_encoder_result (res : List Nat) : Int :=
  if res.isEmpty then -1 else (res.headD 0 : Int)

/-! Helper lemmas about the frame scan. -/

lemma find?_range'_eq_some (p : Nat → Bool) (j : Nat) :
    ∀ (n s : Nat), s ≤ j → j < s + n → p j = true →
      (∀ k, s ≤ k → k < j → p k = false) → (List.range' s n).find? p = some j := by
  intro n
  induction n with
  | zero => intro s h1 h2 _ _; omega
  | succ m ih =>
    intro s h1 h2 hp hlt
    rw [List.range'_succ]
    rcases eq_or_lt_of_le h1 with heq | hs
    · subst heq
      exact List.find?_cons_of_pos _ hp
    · rw [List.find?_cons_of_neg _ (by simp [hlt s le_rfl hs])]
      exact ih (s + 1) hs (by omega) hp (fun k hk1 hk2 => hlt k (by omega) hk2)

lemma find?_range_eq_some (p : Nat → Bool) (n j : Nat) (hj : j < n) (hp : p j = true)
    (hlt : ∀ k, k < j → p k = false) : (List.range n).find? p = some j := by
  rw [List.range_eq_range']
  exact find?_range'_eq_some p j n 0 (Nat.zero_le j) (by omega) hp fun k _ hk => hlt k hk

lemma find_header_at_zero (d : List Nat) (h2 : 2 ≤ d.length)
    (h : is_frame_header d 0 = true) : find_header d = some 0 := by
  unfold find_header
  obtain ⟨m, hm⟩ : ∃ m, d.length - 1 = m + 1 := ⟨d.length - 2, by omega⟩
  rw [hm, List.range_succ_eq_map, List.find?_cons_of_pos _ h]

lemma no_double_sentinel_spec : ∀ (l : List Nat), no_double_sentinel l = true →
    ∀ k, k + 1 < l.length →
      ¬(l.getD k 0 = Command.HEADER ∧ l.getD (k + 1) 0 = Command.HEADER)
  | [] => by intro _ k hk; simp at hk
  | [_] => by intro _ k hk; simp at hk
  | a :: b :: t => by
    intro h k hk
    have h' := h
    simp only [no_double_sentinel, Bool.and_eq_true, Bool.not_eq_true'] at h'
    match k with
    | 0 =>
      intro ⟨hA, hB⟩
      rw [List.getD_cons_zero] at hA
      rw [List.getD_cons_succ, List.getD_cons_zero] at hB
      simp [hA, hB] at h'
    | Nat.succ k' =>
      rw [List.getD_cons_succ, List.getD_cons_succ]
      exact no_double_sentinel_spec (b :: t) h'.2 k' (by simpa using hk)

lemma concat_message_length (genre : Nat) (l : List Nat) :
    (concat_message genre l).length = l.length + 5 := by
  simp [concat_message]

lemma parse_frame_concat (op : Nat) (payload : List Nat) (genre : Nat) :
    parse_frame (concat_message op payload) genre =
      if (2 + payload.length) % 256 < 2 then none
      else if op ≠ genre then some []
      else if 4 + ((2 + payload.length) % 256 - 2) ≤ payload.length + 5 then
        some ((payload ++ [Command.FOOTER]).take ((2 + payload.length) % 256 - 2))
      else none := by
  have hfh : find_header (concat_message op payload) = some 0 := by
    apply find_header_at_zero
    · rw [concat_message_length]; omega
    · simp [is_frame_header, concat_message]
  have h2 : (concat_message op payload)[2]? = some ((2 + payload.length) % 256) := by
    simp [concat_message]
  have h3 : (concat_message op payload)[3]? = some op := by
    simp [concat_message]
  have h4 : (concat_message op payload).drop 4 = payload ++ [Command.FOOTER] := by
    simp [concat_message]
  simp only [parse_frame, concat_message_length, hfh, Nat.zero_add, Nat.add_zero,
    Nat.reduceAdd, h2, h3, h4]
  norm_num

lemma getD_append_left (l₁ l₂ : List Nat) (k : Nat) (h : k < l₁.length) :
    (l₁ ++ l₂).getD k 0 = l₁.getD k 0 := by
  rw [List.getD_eq_getElem?_getD, List.getElem?_append_left h, ← List.getD_eq_getElem?_getD]

lemma getD_append_right (l₁ l₂ : List Nat) (k : Nat) (h : l₁.length ≤ k) :
    (l₁ ++ l₂).getD k 0 = l₂.getD (k - l₁.length) 0 := by
  rw [List.getD_eq_getElem?_getD, List.getElem?_append_right h, ← List.getD_eq_getElem?_getD]

lemma getLast?_ne_imp_getD (l : List Nat) (k : Nat) (hk : k + 1 = l.length)
    (h : l.getLast? ≠ some Command.HEADER) : l.getD k 0 ≠ Command.HEADER := by
  intro hEq
  apply h
  have hk' : k < l.length := by omega
  rw [List.getLast?_eq_getElem?, show l.length - 1 = k from by omega,
    List.getElem?_eq_getElem hk']
  rw [List.getD_eq_getElem?_getD, List.getElem?_eq_getElem hk'] at hEq
  simp only [Option.getD_some] at hEq
  rw [hEq]

lemma find_header_noise (noise F : List Nat) (hF2 : 2 ≤ F.length)
    (hhead : is_frame_header F 0 = true)
    (h1 : no_double_sentinel noise = true)
    (h2 : noise.getLast? ≠ some Command.HEADER) :
    find_header (noise ++ F) = some noise.length := by
  unfold find_header
  apply find?_range_eq_some
  · rw [List.length_append]; omega
  · unfold is_frame_header at hhead ⊢
    rw [getD_append_right noise F noise.length le_rfl,
      getD_append_right noise F (noise.length + 1) (by omega)]
    simpa using hhead
  · intro k hk
    unfold is_frame_header
    rw [getD_append_left noise F k hk]
    by_cases hk1 : k + 1 < noise.length
    · rw [getD_append_left noise F (k + 1) hk1]
      rcases not_and_or.mp (no_double_sentinel_spec noise h1 k hk1) with hA | hB
      · rw [List.getD_eq_getElem?_getD] at hA
        simp [hA]
      · rw [List.getD_eq_getElem?_getD] at hB
        simp [hB]
    · have hke : k + 1 = noise.length := by omega
      have hcur := getLast?_ne_imp_getD noise k hke h2
      rw [List.getD_eq_getElem?_getD] at hcur
      simp [hcur]

lemma parse_frame_noise_concat (noise : List Nat) (op : Nat) (payload : List Nat)
    (genre : Nat) (h1 : no_double_sentinel noise = true)
    (h2 : noise.getLast? ≠ some Command.HEADER) :
    parse_frame (noise ++ concat_message op payload) genre =
      if (2 + payload.length) % 256 < 2 then none
      else if op ≠ genre then some []
      else if 4 + ((2 + payload.length) % 256 - 2) ≤ payload.length + 5 then
        some ((payload ++ [Command.FOOTER]).take ((2 + payload.length) % 256 - 2))
      else none := by
  have hfh : find_header (noise ++ concat_message op payload) = some noise.length := by
    apply find_header_noise
    · rw [concat_message_length]; omega
    · simp [is_frame_header, concat_message]
    · exact h1
    · exact h2
  have hlen : (noise ++ concat_message op payload).length =
      noise.length + (payload.length + 5) := by
    rw [List.length_append, concat_message_length]
  have hb2 : (noise ++ concat_message op payload)[noise.length + 2]? =
      some ((2 + payload.length) % 256) := by
    rw [List.getElem?_append_right (by omega), show noise.length + 2 - noise.length = 2 from
      by omega]
    simp [concat_message]
  have hb3 : (noise ++ concat_message op payload)[noise.length + 3]? = some op := by
    rw [List.getElem?_append_right (by omega), show noise.length + 3 - noise.length = 3 from
      by omega]
    simp [concat_message]
  have hdrop : (noise ++ concat_message op payload).drop (noise.length + 4) =
      payload ++ [Command.FOOTER] := by
    rw [← List.drop_drop, List.drop_left]
    simp [concat_message]
  simp only [parse_frame, hlen, hfh, hb2, hb3, hdrop]
  rw [if_neg (by omega)]
  by_cases hc : (2 + payload.length) % 256 < 2
  · simp [hc]
  · simp only [hc, if_false]
    by_cases hop : op = genre
    · simp only [hop, ne_eq, not_true_eq_false, if_false, ite_not]
      by_cases hbound : 4 + ((2 + payload.length) % 256 - 2) ≤ payload.length + 5
      · rw [if_pos (by omega), if_pos hbound]
      · rw [if_neg (by omega), if_neg hbound]
    · simp [hop]

/-- C5: for every opcode and every payload of length at most 252 containing no
two consecutive sentinel bytes, parsing the frame built from them with the
same expected opcode returns exactly that payload. -/
theorem parse_frame_roundtrip (op : Nat) (payload : List Nat)
    (hlen : payload.length ≤ 252) (hnds : no_double_sentinel payload = true) :
    parse_frame (concat_message op payload) op = some payload := by
  rw [parse_frame_concat,
    Nat.mod_eq_of_lt (show 2 + payload.length < 256 from by omega)]
  rw [if_neg (by omega), if_neg (by simp), if_pos (by omega),
    show 2 + payload.length - 2 = payload.length from by omega,
    List.take_left payload [Command.FOOTER]]

/-- C5 witness: a concrete payload round-trips through build and parse. -/
theorem parse_frame_roundtrip_witness :
    ([1, 2, 3] : List Nat).length ≤ 252 ∧ no_double_sentinel [1, 2, 3] = true ∧
      parse_frame (concat_message 16 [1, 2, 3]) 16 = some [1, 2, 3] :=
  ⟨by decide, by decide, parse_frame_roundtrip 16 [1, 2, 3] (by decide) (by decide)⟩

/-- C6 counterexample: a prefix consisting of one single sentinel byte contains
no two consecutive sentinels, yet prepending it changes the parse result — the
junction with the frame's first sentinel forms an earlier bogus header. -/
theorem parse_frame_noise_counterexample :
    no_double_sentinel [Command.HEADER] = true ∧
      parse_frame ([Command.HEADER] ++ concat_message 16 [7]) 16 ≠
        parse_frame (concat_message 16 [7]) 16 := by decide

/-- C6 (amended): prepending any byte sequence that contains no two consecutive
sentinel bytes and does not end with a sentinel byte leaves the parse result
of a built frame unchanged, for every expected opcode. -/
theorem parse_frame_noise_invariant (noise : List Nat) (op : Nat) (payload : List Nat)
    (genre : Nat) (h1 : no_double_sentinel noise = true)
    (h2 : noise.getLast? ≠ some Command.HEADER) :
    parse_frame (noise ++ concat_message op payload) genre =
      parse_frame (concat_message op payload) genre := by
  rw [parse_frame_concat, parse_frame_noise_concat noise op payload genre h1 h2]

/-- C6 witness: a concrete sentinel-free prefix leaves the parse unchanged. -/
theorem parse_frame_noise_invariant_witness :
    no_double_sentinel [1, 2] = true ∧
      ([1, 2] : List Nat).getLast? ≠ some Command.HEADER ∧
      parse_frame ([1, 2] ++ concat_message 16 [3]) 16 =
        parse_frame (concat_message 16 [3]) 16 :=
  ⟨by decide, by decide, parse_frame_noise_invariant [1, 2] 16 [3] 16 (by decide) (by decide)⟩

/-- C1: the code, not the claim — `process_received` panics (modelled as
`none`) on a zero-length reply (`data.len() - 1` underflows before the scan's
first index access) and on a reply shorter than its declared length (the
payload slice is out of range), instead of returning the empty sequence. -/
theorem process_received_panic_cases :
    process_received [] 0 = none ∧
      process_received [Command.HEADER, Command.HEADER, 16, 0] 0 = none := by decide

/-- C2: the code, not the claim — `is_power_on` returns the first raw reply
byte without any frame parsing: on a nonempty reply with no locatable header
it returns that byte (here 0), although the parse-and-decode pipeline yields
the empty decode, for which the claim demands the sentinel -1. -/
theorem is_power_on_ignores_framing :
    is_power_on_result [0, 7] = 0 ∧
      process_received [0, 7] Command.IS_POWER_ON = some [] ∧ (0 : Int) ≠ -1 := by decide

/-- C10: every scalar status query returns the first raw transport byte
zero-extended to a (nonnegative) integer whenever the reply is nonempty; no
frame scan, opcode comparison or 16-bit decode participates, and only the
fully empty reply yields -1. -/
theorem scalar_queries_first_raw_byte (res : List Nat) (h : res ≠ []) :
    is_power_on_result res = (res.headD 0 : Int) ∧
      is_controller_connected_result res = (res.headD 0 : Int) ∧
      is_moving_result res = (res.headD 0 : Int) ∧
      is_paused_result res = (res.headD 0 : Int) ∧
      is_in_angle_position_result res = (res.headD 0 : Int) ∧
      is_in_coord_position_result res = (res.headD 0 : Int) ∧
      get_encoder_result res = (res.headD 0 : Int) ∧
      0 ≤ is_power_on_result res ∧
      is_power_on_result [] = -1 ∧ is_controller_connected_result [] = -1 ∧
      is_moving_result [] = -1 ∧ is_paused_result [] = -1 ∧
      is_in_angle_position_result [] = -1 ∧ is_in_coord_position_result [] = -1 ∧
      get_encoder_result [] = -1 := by
  rcases res with _ | ⟨a, t⟩
  · exact absurd rfl h
  · simp [is_power_on_result, is_controller_connected_result, is_moving_result,
      is_paused_result, is_in_angle_position_result, is_in_coord_position_result,
      get_encoder_result]

/-- C10 witness: a one-byte reply produces that byte. -/
theorem scalar_queries_first_raw_byte_witness :
    ([5] : List Nat) ≠ [] ∧ is_power_on_result [5] = 5 :=
  ⟨by decide, by
    have h := (scalar_queries_first_raw_byte [5] (by decide)).1
    simpa using h⟩

/-- C8 counterexample: a zero-length payload has "any other length", yet the
code does not decode it to a signed 8-bit scalar — it panics reading the first
byte of an empty slice (modelled as `none`). -/
theorem decode_payload_empty_panics : decode_payload [] 0 = none := by decide

lemma exists_twelve (p : List Nat) (h : p.length = 12) :
    ∃ b0 b1 b2 b3 b4 b5 b6 b7 b8 b9 b10 b11,
      p = [b0, b1, b2, b3, b4, b5, b6, b7, b8, b9, b10, b11] := by
  rcases p with _ | ⟨b0, p⟩; · simp at h
  rcases p with _ | ⟨b1, p⟩; · simp at h
  rcases p with _ | ⟨b2, p⟩; · simp at h
  rcases p with _ | ⟨b3, p⟩; · simp at h
  rcases p with _ | ⟨b4, p⟩; · simp at h
  rcases p with _ | ⟨b5, p⟩; · simp at h
  rcases p with _ | ⟨b6, p⟩; · simp at h
  rcases p with _ | ⟨b7, p⟩; · simp at h
  rcases p with _ | ⟨b8, p⟩; · simp at h
  rcases p with _ | ⟨b9, p⟩; · simp at h
  rcases p with _ | ⟨b10, p⟩; · simp at h
  rcases p with _ | ⟨b11, p⟩; · simp at h
  rcases p with _ | ⟨b12, p⟩
  · exact ⟨b0, b1, b2, b3, b4, b5, b6, b7, b8, b9, b10, b11, rfl⟩
  · simp at h

/-- C8 (amended): `decode_payload` dispatches strictly on payload byte length —
12 bytes give six signed 16-bit big-endian values, 2 bytes give one signed
16-bit value except that the servo-enabled opcode takes only the second byte
as a signed 8-bit value, and any other nonzero length gives the first byte as
a signed 8-bit scalar; a zero-length payload panics instead. -/
theorem decode_payload_dispatch (p : List Nat) (genre : Nat) :
    (p.length = 12 →
      decode_payload p genre =
        some [as_i16 (p.getD 0 0 * 256 + p.getD 1 0),
          as_i16 (p.getD 2 0 * 256 + p.getD 3 0),
          as_i16 (p.getD 4 0 * 256 + p.getD 5 0),
          as_i16 (p.getD 6 0 * 256 + p.getD 7 0),
          as_i16 (p.getD 8 0 * 256 + p.getD 9 0),
          as_i16 (p.getD 10 0 * 256 + p.getD 11 0)]) ∧
    (p.length = 2 →
      decode_payload p genre =
        some [if genre = Command.IS_SERVO_ENABLE then as_i8 (p.getD 1 0)
          else as_i16 (p.getD 0 0 * 256 + p.getD 1 0)]) ∧
    (p.length ≠ 12 → p.length ≠ 2 → p ≠ [] →
      decode_payload p genre = some [as_i8 (p.getD 0 0)]) := by
  refine ⟨?_, ?_, ?_⟩
  · intro h12
    obtain ⟨b0, b1, b2, b3, b4, b5, b6, b7, b8, b9, b10, b11, rfl⟩ := exists_twelve p h12
    simp [decode_payload, decode_int16_vec]
  · intro h2
    rcases p with _ | ⟨b0, p⟩; · simp at h2
    rcases p with _ | ⟨b1, p⟩; · simp at h2
    rcases p with _ | ⟨b2, p⟩
    · by_cases hsv : genre = Command.IS_SERVO_ENABLE
      · simp [decode_payload, hsv, decode_int8]
      · simp [decode_payload, hsv, decode_int16]
    · simp at h2
  · intro hn12 hn2 hne
    rcases p with _ | ⟨b, t⟩
    · exact absurd rfl hne
    · simp only [List.length_cons] at hn12 hn2
      simp [decode_payload, decode_int8, show t.length ≠ 11 from by omega,
        show t.length ≠ 1 from by omega]

/-- C8 witness: one concrete payload per dispatch branch. -/
theorem decode_payload_dispatch_witness :
    decode_payload [0, 1, 0, 2, 0, 3, 0, 4, 0, 5, 0, 6] 9 = some [1, 2, 3, 4, 5, 6] ∧
      decode_payload [1, 1] Command.IS_SERVO_ENABLE = some [1] ∧
      decode_payload [200, 9, 9] 4 = some [-56] := by
  refine ⟨?_, ?_, ?_⟩
  · have h := (decode_payload_dispatch [0, 1, 0, 2, 0, 3, 0, 4, 0, 5, 0, 6] 9).1 (by decide)
    rw [h]; decide
  · have h := (decode_payload_dispatch [1, 1] Command.IS_SERVO_ENABLE).2.1 (by decide)
    rw [h]; decide
  · have h := (decode_payload_dispatch [200, 9, 9] 4).2.2 (by decide) (by decide) (by decide)
    rw [h]; decide

set_option maxRecDepth 40000 in
/-- C9 counterexample: for a payload of 254 bytes the length byte of the built
frame is (254 + 2) mod 256 = 0, not the actual payload size plus 2. -/
theorem concat_message_length_wraps :
    (concat_message 0 (List.replicate 254 0)).getD 2 0 = 0 ∧
      (List.replicate 254 (0 : Nat)).length + 2 = 256 ∧ (0 : Nat) ≠ 256 := by decide

/-- C9 (amended): for payloads of at most 253 bytes, `concat_message` emits
exactly the sequence sentinel, sentinel, payload length plus 2, opcode,
payload, sentinel. -/
theorem concat_message_layout (genre : Nat) (payload : List Nat)
    (h : payload.length ≤ 253) :
    concat_message genre payload =
      [Command.HEADER, Command.HEADER, payload.length + 2, genre] ++ payload ++
        [Command.FOOTER] := by
  rw [concat_message, show (2 + payload.length) % 256 = payload.length + 2 from by omega]
  simp

/-- C9 witness: a concrete two-byte payload produces the exact frame bytes. -/
theorem concat_message_layout_witness :
    ([1, 2] : List Nat).length ≤ 253 ∧
      concat_message 16 [1, 2] = [254, 254, 4, 16, 1, 2, 254] := by
  refine ⟨by decide, ?_⟩
  rw [concat_message_layout 16 [1, 2] (by decide)]
  decide

lemma process_received_concat (op : Nat) (payload : List Nat) (genre : Nat) :
    process_received (concat_message op payload) genre =
      if (2 + payload.length) % 256 < 2 then none
      else if op ≠ genre then some []
      else if 4 + ((2 + payload.length) % 256 - 2) ≤ payload.length + 5 then
        decode_payload ((payload ++ [Command.FOOTER]).take ((2 + payload.length) % 256 - 2))
          genre
      else none := by
  have hfh : find_header (concat_message op payload) = some 0 := by
    apply find_header_at_zero
    · rw [concat_message_length]; omega
    · simp [is_frame_header, concat_message]
  have h2 : (concat_message op payload)[2]? = some ((2 + payload.length) % 256) := by
    simp [concat_message]
  have h3 : (concat_message op payload)[3]? = some op := by
    simp [concat_message]
  have h4 : (concat_message op payload).drop 4 = payload ++ [Command.FOOTER] := by
    simp [concat_message]
  simp only [process_received, concat_message_length, hfh, Nat.zero_add, Nat.add_zero,
    Nat.reduceAdd, h2, h3, h4]
  norm_num

lemma decode_payload_twelve (b : List Nat) (genre : Nat) (hb : b.length = 12) :
    decode_payload b genre =
      some [as_i16 (b.getD 0 0 * 256 + b.getD 1 0),
        as_i16 (b.getD 2 0 * 256 + b.getD 3 0),
        as_i16 (b.getD 4 0 * 256 + b.getD 5 0),
        as_i16 (b.getD 6 0 * 256 + b.getD 7 0),
        as_i16 (b.getD 8 0 * 256 + b.getD 9 0),
        as_i16 (b.getD 10 0 * 256 + b.getD 11 0)] := by
  obtain ⟨b0, b1, b2, b3, b4, b5, b6, b7, b8, b9, b10, b11, rfl⟩ := exists_twelve b hb
  simp [decode_payload, decode_int16_vec]

lemma process_received_twelve (genre : Nat) (b : List Nat) (hb : b.length = 12) :
    process_received (concat_message genre b) genre =
      some [as_i16 (b.getD 0 0 * 256 + b.getD 1 0),
        as_i16 (b.getD 2 0 * 256 + b.getD 3 0),
        as_i16 (b.getD 4 0 * 256 + b.getD 5 0),
        as_i16 (b.getD 6 0 * 256 + b.getD 7 0),
        as_i16 (b.getD 8 0 * 256 + b.getD 9 0),
        as_i16 (b.getD 10 0 * 256 + b.getD 11 0)] := by
  rw [process_received_concat, hb]
  rw [if_neg (by norm_num), if_neg (by simp), if_pos (by norm_num)]
  rw [show (2 + 12) % 256 - 2 = 12 from by norm_num]
  rw [show (12 : Nat) = b.length from hb.symm, List.take_left b [Command.FOOTER],
    decode_payload_twelve b genre hb]

/-- C3 counterexample: a well-formed GET_ANGLES reply whose first decoded
16-bit value is 1000 yields 10 at index 0 — division by 100 — while the
claim's per-index rule demands 1000 divided by 10 for indices 0 to 2. -/
theorem get_angles_not_per_index_scaled :
    get_angles_from_reply [254, 254, 14, 32, 3, 232, 0, 0, 0, 0, 0, 0, 0, 0, 0, 0, 254] =
      some [10, 0, 0, 0, 0, 0] ∧ (10 : ℚ) ≠ 1000 / 10 := by
  constructor
  · have h : process_received [254, 254, 14, 32, 3, 232, 0, 0, 0, 0, 0, 0, 0, 0, 0, 0, 254]
        Command.GET_ANGLES = some [1000, 0, 0, 0, 0, 0] := by decide
    simp [get_angles_from_reply, h, int_to_angle]
    norm_num
  · norm_num

/-- C3 (amended): both readers decode the 12-byte reply payload as six signed
16-bit big-endian integers, but only `get_coords` applies the per-index
inverse scaling (indices 0–2 divided by 10, indices 3–5 by 100); `get_angles`
divides every decoded value by 100. -/
theorem get_angles_coords_decode_scaling (b : List Nat) (hb : b.length = 12) :
    get_coords_from_reply (concat_message Command.GET_COORDS b) =
      some [(as_i16 (b.getD 0 0 * 256 + b.getD 1 0) : ℚ) / 10,
        (as_i16 (b.getD 2 0 * 256 + b.getD 3 0) : ℚ) / 10,
        (as_i16 (b.getD 4 0 * 256 + b.getD 5 0) : ℚ) / 10,
        (as_i16 (b.getD 6 0 * 256 + b.getD 7 0) : ℚ) / 100,
        (as_i16 (b.getD 8 0 * 256 + b.getD 9 0) : ℚ) / 100,
        (as_i16 (b.getD 10 0 * 256 + b.getD 11 0) : ℚ) / 100] ∧
    get_angles_from_reply (concat_message Command.GET_ANGLES b) =
      some [(as_i16 (b.getD 0 0 * 256 + b.getD 1 0) : ℚ) / 100,
        (as_i16 (b.getD 2 0 * 256 + b.getD 3 0) : ℚ) / 100,
        (as_i16 (b.getD 4 0 * 256 + b.getD 5 0) : ℚ) / 100,
        (as_i16 (b.getD 6 0 * 256 + b.getD 7 0) : ℚ) / 100,
        (as_i16 (b.getD 8 0 * 256 + b.getD 9 0) : ℚ) / 100,
        (as_i16 (b.getD 10 0 * 256 + b.getD 11 0) : ℚ) / 100] := by
  constructor
  · unfold get_coords_from_reply
    rw [process_received_twelve Command.GET_COORDS b hb]
    simp [int_vec_to_coords, int_to_coord, int_to_angle, List.enum, List.enumFrom]
  · unfold get_angles_from_reply
    rw [process_received_twelve Command.GET_ANGLES b hb]
    simp [int_to_angle]

/-- C3 witness: decoded value 1000 at index 0 becomes 100 for a coordinate
but 10 for an angle. -/
theorem get_angles_coords_decode_scaling_witness :
    get_coords_from_reply
        (concat_message Command.GET_COORDS [3, 232, 0, 0, 0, 0, 0, 0, 0, 0, 0, 0]) =
      some [100, 0, 0, 0, 0, 0] ∧
    get_angles_from_reply
        (concat_message Command.GET_ANGLES [3, 232, 0, 0, 0, 0, 0, 0, 0, 0, 0, 0]) =
      some [10, 0, 0, 0, 0, 0] := by
  obtain ⟨h1, h2⟩ :=
    get_angles_coords_decode_scaling [3, 232, 0, 0, 0, 0, 0, 0, 0, 0, 0, 0] (by decide)
  constructor
  · rw [h1]
    norm_num [as_i16]
  · rw [h2]
    norm_num [as_i16]

lemma f64_as_i16_spec (r : ℚ) :
    (-32768 ≤ f64_as_i16 r ∧ f64_as_i16 r ≤ 32767) ∧
    (32767 < r → f64_as_i16 r = 32767) ∧
    (r < -32768 → f64_as_i16 r = -32768) ∧
    (-32768 ≤ r → r ≤ 32767 → f64_as_i16 r = if 0 ≤ r then ⌊r⌋ else ⌈r⌉) := by
  unfold f64_as_i16
  refine ⟨⟨le_max_left _ _, max_le (by norm_num) (min_le_left _ _)⟩, ?_, ?_, ?_⟩
  · intro hgt
    have h0 : (0 : ℚ) ≤ r := le_of_lt (lt_trans (by norm_num) hgt)
    have hfl : (32767 : Int) ≤ ⌊r⌋ := Int.le_floor.mpr (by exact_mod_cast hgt.le)
    rw [if_pos h0, min_eq_left hfl, max_eq_right (by norm_num)]
  · intro hlt
    have h0 : ¬ (0 : ℚ) ≤ r := not_le.mpr (lt_trans hlt (by norm_num))
    have hcl : ⌈r⌉ ≤ -32768 := Int.ceil_le.mpr (by exact_mod_cast hlt.le)
    rw [if_neg h0, min_eq_right (by omega), max_eq_left (by omega)]
  · intro hge hle
    by_cases h0 : (0 : ℚ) ≤ r
    · have h1 : ⌊r⌋ ≤ 32767 := by exact_mod_cast le_trans (Int.floor_le r) hle
      have h2 : (-32768 : Int) ≤ ⌊r⌋ := Int.le_floor.mpr (by exact_mod_cast hge)
      rw [if_pos h0, min_eq_right h1, max_eq_right h2]
    · have h1 : ⌈r⌉ ≤ 32767 := Int.ceil_le.mpr (by exact_mod_cast hle)
      have h2 : (-32768 : Int) ≤ ⌈r⌉ := by
        have hc := Int.le_ceil r
        exact_mod_cast le_trans (show ((-32768 : Int) : ℚ) ≤ r from by exact_mod_cast hge) hc
      rw [if_neg h0, min_eq_right h1, max_eq_right h2]

/-- C4 counterexample: encoding 400 degrees scales to 40000, outside the i16
range; the result saturates at 32767 instead of wrapping to
40000 - 65536 = -25536 as fixed-width truncation semantics would give. -/
theorem angle_to_int_saturates_not_wraps :
    angle_to_int 400 = 32767 ∧ angle_to_int 400 ≠ -25536 := by
  have h : angle_to_int 400 = 32767 := by norm_num [angle_to_int, f64_as_i16]
  exact ⟨h, by rw [h]; decide⟩

/-- C4 (amended): `angle_to_int` multiplies by 100 and `coord_to_int` by 10,
truncating toward zero when the scaled value fits in 16 bits; a scaled value
outside the i16 range saturates to the nearest bound (-32768 or 32767)
rather than wrapping — no error in either case. -/
theorem encode_truncate_saturate (q : ℚ) :
    ((-32768 ≤ angle_to_int q ∧ angle_to_int q ≤ 32767) ∧
      (32767 < q * 100 → angle_to_int q = 32767) ∧
      (q * 100 < -32768 → angle_to_int q = -32768) ∧
      (-32768 ≤ q * 100 → q * 100 ≤ 32767 →
        angle_to_int q = if 0 ≤ q * 100 then ⌊q * 100⌋ else ⌈q * 100⌉)) ∧
    ((-32768 ≤ coord_to_int q ∧ coord_to_int q ≤ 32767) ∧
      (32767 < q * 10 → coord_to_int q = 32767) ∧
      (q * 10 < -32768 → coord_to_int q = -32768) ∧
      (-32768 ≤ q * 10 → q * 10 ≤ 32767 →
        coord_to_int q = if 0 ≤ q * 10 then ⌊q * 10⌋ else ⌈q * 10⌉)) := by
  constructor
  · exact f64_as_i16_spec (q * 100)
  · exact f64_as_i16_spec (q * 10)

/-- C4 witness: 400 degrees saturates high; -12.75 millimetres scales to
-127.5 and truncates toward zero to -127. -/
theorem encode_truncate_saturate_witness :
    angle_to_int 400 = 32767 ∧ coord_to_int (-12.75) = -127 := by
  constructor
  · exact (encode_truncate_saturate 400).1.2.1 (by norm_num)
  · have h := (encode_truncate_saturate (-12.75)).2.2.2.2 (by norm_num) (by norm_num)
    rw [h, if_neg (by norm_num)]
    rw [show ((-12.75 : ℚ) * 10) = -127.5 from by norm_num]
    rw [Int.ceil_eq_iff]
    constructor <;> norm_num

lemma int_log_two_eq (q : ℚ) (z : ℤ) (h0 : 0 < q)
    (h1 : (2 : ℚ) ^ z ≤ q) (h2 : q < (2 : ℚ) ^ (z + 1)) : Int.log 2 q = z := by
  have ha : z ≤ Int.log 2 q :=
    (Int.zpow_le_iff_le_log (by norm_num) h0).mp (by exact_mod_cast h1)
  have hb : Int.log 2 q < z + 1 :=
    (Int.lt_zpow_iff_log_lt (by norm_num) h0).mp (by exact_mod_cast h2)
  omega

lemma rne64_pos (q : ℚ) (z : ℤ) (h0 : 0 < q)
    (h1 : (2 : ℚ) ^ z ≤ q) (h2 : q < (2 : ℚ) ^ (z + 1)) :
    rne64 q = (round_half_even (q / 2 ^ (z - 52)) : ℚ) * 2 ^ (z - 52) := by
  unfold rne64
  rw [if_neg (ne_of_gt h0), abs_of_pos h0, int_log_two_eq q z h0 h1 h2]

lemma round_half_even_floor (m : ℚ) (n : Int) (hf : ⌊m⌋ = n)
    (hlt : m - (n : ℚ) < 1 / 2) : round_half_even m = n := by
  unfold round_half_even
  rw [hf, if_pos hlt]

lemma int_to_angle_f64_29 :
    int_to_angle_f64 29 = 5224175567749775 / 18014398509481984 := by
  unfold int_to_angle_f64 f64_div
  rw [show ((29 : Int) : ℚ) / 100 = 29 / 100 from by norm_num,
    rne64_pos (29 / 100) (-2) (by norm_num) (by norm_num) (by norm_num),
    show (-2 - 52 : ℤ) = -54 from by norm_num,
    show (29 / 100 : ℚ) / 2 ^ (-54 : ℤ) = 130604389193744384 / 25 from by norm_num,
    round_half_even_floor (130604389193744384 / 25) 5224175567749775
      (by rw [Int.floor_eq_iff]; constructor <;> norm_num) (by norm_num)]
  norm_num

lemma angle_to_int_f64_of_29 :
    angle_to_int_f64 (5224175567749775 / 18014398509481984) = 28 := by
  unfold angle_to_int_f64 f64_mul
  rw [show (5224175567749775 / 18014398509481984 : ℚ) * 100 =
      130604389193744375 / 4503599627370496 from by norm_num,
    rne64_pos (130604389193744375 / 4503599627370496) 4 (by norm_num) (by norm_num)
      (by norm_num),
    show (4 - 52 : ℤ) = -48 from by norm_num,
    show (130604389193744375 / 4503599627370496 : ℚ) / 2 ^ (-48 : ℤ) =
      130604389193744375 / 16 from by norm_num,
    round_half_even_floor (130604389193744375 / 16) 8162774324609023
      (by rw [Int.floor_eq_iff]; constructor <;> norm_num) (by norm_num),
    show ((8162774324609023 : Int) : ℚ) * 2 ^ (-48 : ℤ) =
      8162774324609023 / 281474976710656 from by norm_num]
  unfold f64_as_i16
  rw [if_pos (by norm_num),
    show ⌊(8162774324609023 / 281474976710656 : ℚ)⌋ = 28 from by
      rw [Int.floor_eq_iff]; constructor <;> norm_num]
  norm_num

lemma int_to_angle_f64_zero : int_to_angle_f64 0 = 0 := by
  unfold int_to_angle_f64 f64_div rne64
  norm_num

lemma int_to_coord_f64_zero : int_to_coord_f64 0 = 0 := by
  unfold int_to_coord_f64 f64_div rne64
  norm_num

lemma angle_to_int_f64_zero : angle_to_int_f64 0 = 0 := by
  unfold angle_to_int_f64 f64_mul rne64 f64_as_i16
  norm_num

lemma coord_to_int_f64_zero : coord_to_int_f64 0 = 0 := by
  unfold coord_to_int_f64 f64_mul rne64 f64_as_i16
  norm_num

/-- C7: the code, not the claim — on the program's binary64 arithmetic the
round trip through `int_to_coords` and `coords_to_int` is not the identity:
for the wire value 29 in an angle slot, `29.0 / 100.0` rounds to the double
nearest 0.29, multiplying it by `100.0` rounds to 28.999999999999996, and the
truncating `as i16` cast drops it to 28, where the claim (and the spec's
"must be each other's exact inverse under that index rule") requires 29. -/
theorem coords_roundtrip_f64_fails :
    coords_to_int_vec_f64 (int_vec_to_coords_f64 [0, 0, 0, 29, 0, 0]) =
      [0, 0, 0, 28, 0, 0] ∧ ([0, 0, 0, 28, 0, 0] : List Int) ≠ [0, 0, 0, 29, 0, 0] := by
  constructor
  · simp [int_vec_to_coords_f64, coords_to_int_vec_f64, List.enum, List.enumFrom,
      int_to_angle_f64_29, angle_to_int_f64_of_29, int_to_angle_f64_zero,
      int_to_coord_f64_zero, angle_to_int_f64_zero, coord_to_int_f64_zero]
  · decide

end MyCobot
